import Mathlib

/-!
Verification of the routing-and-streaming core of uni-api.

This file shallowly embeds the credential-pool scheduler
(`ThreadSafeCircularList` in `utils.py`), the OpenAI-format SSE emitters
(`generate_sse_response` / `generate_no_stream_response` in `utils.py`),
the first-chunk error check on decoded JSON objects
(`check_response_content` in `utils.py`), and the provider stream
adapters for Gemini, Claude and GPT (`response.py`), and proves or
refutes the specification claims about them.

Conventions of the embedding:
* wall-clock times (`time.time()`, `datetime.timestamp`) are integer
  seconds supplied as explicit parameters;
* JSON values are the tagged `JValue` tree (numbers restricted to
  integers, which covers every numeric field the claims touch);
* `json.loads` is an abstract parameter `parse` of the adapter models
  (universally quantified in theorems, instantiated concretely for
  counterexamples); an uncaught exception of the original code
  (JSON decode error outside a try block, missing key, value of an
  unexpected shape) is modelled as `Except.error ()`;
* Python's seeded Mersenne-Twister draw of 29 alphabet characters after
  `random.seed(timestamp)` is modelled by an abstract `RNG`
  `Int → Fin 29 → Fin 62`: the same timestamp always yields the same
  29 indices into the same 62-character alphabet, which is exactly the
  property the code relies on.
-/

/-- Tagged JSON tree (numbers restricted to integers). -/
inductive JValue where
  | null : JValue
  | bool (b : Bool) : JValue
  | num (n : Int) : JValue
  | str (s : String) : JValue
  | arr (xs : List JValue) : JValue
  | obj (kvs : List (String × JValue)) : JValue

/-- First value bound to key `k`, as Python `dict` lookup on a
decoded-JSON object (keys unique after `json.loads`). -/
def jLookup (kvs : List (String × JValue)) (k : String) : Option JValue :=
  (kvs.find? (fun kv => kv.1 == k)).map (fun kv => kv.2)

/-- Python truthiness of a decoded JSON value. -/
def jTruthy : JValue → Bool
  | .null => false
  | .bool b => b
  | .num n => n != 0
  | .str s => s != ""
  | .arr xs => !xs.isEmpty
  | .obj kvs => !kvs.isEmpty

/-- Python truthiness of an optional value (`None` is falsy). -/
def jTruthyO : Option JValue → Bool
  | none => false
  | some v => jTruthy v

/-- Python `d[k] = v` on a dict: replace in place if the key exists,
else append the new binding at the end. -/
def objSet (kvs : List (String × JValue)) (k : String) (v : JValue) :
    List (String × JValue) :=
  if kvs.any (fun kv => kv.1 == k) then
    kvs.map (fun kv => if kv.1 == k then (k, v) else kv)
  else kvs ++ [(k, v)]

/-- One step of a `safe_get` path: a dict key or a list index. -/
inductive PKey where
  | k (s : String) : PKey
  | i (n : Int) : PKey

/-- Python list subscript with negative-index support, as used by
`safe_get` (`utils.py`). -/
def pyIndex (xs : List JValue) (n : Int) : Option JValue :=
  let m := if n < 0 then n + xs.length else n
  if 0 ≤ m ∧ m < xs.length then xs.get? m.toNat else none

/-- `safe_get(data, *keys, default=None)` from `utils.py`: walk the path,
returning `none` (the default) as soon as a step fails. -/
def safe_get : JValue → List PKey → Option JValue
  | v, [] => some v
  | .obj kvs, .k s :: rest =>
    match jLookup kvs s with
    | some v => safe_get v rest
    | none => none
  | .arr xs, .i n :: rest =>
    match pyIndex xs n with
    | some v => safe_get v rest
    | none => none
  | _, _ => none

/-- Lower-case hex digit. -/
def hexDigit (n : Nat) : String :=
  String.singleton (Char.ofNat (if n < 10 then 48 + n else 87 + n))

/-- Escape of one character inside a JSON string literal, following
`json.dumps` with `ensure_ascii=False`. -/
def escChar (c : Char) : String :=
  if c = '"' then "\\\""
  else if c = '\\' then "\\\\"
  else if c = '\n' then "\\n"
  else if c = '\r' then "\\r"
  else if c = '\t' then "\\t"
  else if c = Char.ofNat 8 then "\\b"
  else if c = Char.ofNat 12 then "\\f"
  else if c.toNat < 32 then "\\u00" ++ hexDigit (c.toNat / 16) ++ hexDigit (c.toNat % 16)
  else String.singleton c

/-- JSON string literal. -/
def jquote (s : String) : String :=
  "\"" ++ String.join (s.data.map escChar) ++ "\""

mutual

/-- `json.dumps(v, ensure_ascii=False)` with the default separators
`", "` and `": "`. -/
def serialize : JValue → String
  | .null => "null"
  | .bool true => "true"
  | .bool false => "false"
  | .num n => toString n
  | .str s => jquote s
  | .arr xs => "[" ++ serializeList xs ++ "]"
  | .obj kvs => "\x7b" ++ serializeKVs kvs ++ "\x7d"

/-- Comma-separated serialization of array elements. -/
def serializeList : List JValue → String
  | [] => ""
  | [x] => serialize x
  | x :: y :: xs => serialize x ++ ", " ++ serializeList (y :: xs)

/-- Comma-separated serialization of object members. -/
def serializeKVs : List (String × JValue) → String
  | [] => ""
  | [(k, v)] => jquote k ++ ": " ++ serialize v
  | (k, v) :: kv :: kvs => jquote k ++ ": " ++ serialize v ++ ", " ++ serializeKVs (kv :: kvs)

end

/-- Substring test, Python's `pat in s` on strings. -/
def containsSub (pat s : String) : Bool :=
  s.data.tails.any (fun t => pat.data.isPrefixOf t)

/-- `s.startswith(pre)`. -/
def strStartsWith (s pre : String) : Bool :=
  pre.data.isPrefixOf s.data

/-- Python's whitespace set for `str.strip()`. -/
def pySpace (c : Char) : Bool :=
  c = ' ' || c = '\t' || c = '\n' || c = '\r' || c = Char.ofNat 11 || c = Char.ofNat 12

/-- `s.lstrip(cut)`: drop every leading character from the cut set. -/
def pyLstrip (cutset : List Char) (s : String) : String :=
  ⟨s.data.dropWhile (fun c => cutset.contains c)⟩

/-- The character set of Python's `line.lstrip("data: ")`. -/
def dataStripChars : List Char := ['d', 'a', 't', ':', ' ']

/-- `s.strip()` with no argument: trim Python whitespace on both ends. -/
def pyStrip (s : String) : String :=
  ⟨((s.data.dropWhile pySpace).reverse.dropWhile pySpace).reverse⟩

/-- Split a character stream at every `'\n'`, keeping the (possibly
empty) trailing segment: the shape of the adapters' buffer loop. -/
def splitNl : List Char → List (List Char)
  | [] => [[]]
  | '\n' :: rest => [] :: splitNl rest
  | c :: rest =>
    match splitNl rest with
    | [] => [[c]]
    | seg :: segs => (c :: seg) :: segs

/-- The complete lines an adapter's buffer loop processes for a given
upstream chunk sequence: everything up to the last `'\n'`; a trailing
partial line stays in the buffer and is never processed. -/
def linesOf (chunks : List String) : List String :=
  ((splitNl (String.join chunks).data).map (fun l => (⟨l⟩ : String))).dropLast

/-- Split a character stream at every 2-character `"\\n"` sequence:
Python `content.split("\\n")` from the Gemini adapter. -/
def splitBsn : List Char → List (List Char)
  | '\\' :: 'n' :: rest => [] :: splitBsn rest
  | c :: rest =>
    match splitBsn rest with
    | [] => [[c]]
    | seg :: segs => (c :: seg) :: segs
  | [] => [[]]

/-- `"\n".join(segments)`. -/
def joinNl : List (List Char) → List Char
  | [] => []
  | [s] => s
  | s :: t :: ss => s ++ '\n' :: joinNl (t :: ss)

/-- The Gemini adapter's text post-processing:
`"\n".join(content.split("\\n"))`. -/
def gemTextContent (s : String) : String :=
  ⟨joinNl (splitBsn s.data)⟩

/-- `end_of_line` from `utils.py`. -/
def end_of_line : String := "\n\n"

/-- The terminal SSE line `data: [DONE]` plus `end_of_line`. -/
def doneStr : String := "data: [DONE]" ++ end_of_line

/-- Abstract seeded random generator: after `random.seed(timestamp)`,
`random.choices(alphabet, k=29)` is a pure function of the timestamp
giving 29 indices into the 62-character alphabet. -/
def RNG : Type := Int → Fin 29 → Fin 62

/-- `string.ascii_letters + string.digits`. -/
def idAlphabet : String :=
  "abcdefghijklmnopqrstuvwxyzABCDEFGHIJKLMNOPQRSTUVWXYZ0123456789"

/-- The alphabet as characters. -/
def idAlphabetChars : List Char := idAlphabet.data

/-- The 29-character random string drawn after `random.seed(timestamp)`:
29 draws from the 62-character alphabet. -/
def randStr29 (rng : RNG) (t : Int) : String :=
  ⟨List.ofFn (fun i : Fin 29 => idAlphabetChars.getD (rng t i).val 'a')⟩

/-- The chat id `f"chatcmpl-{random_str}"`. -/
def chatcmplId (rng : RNG) (t : Int) : String :=
  "chatcmpl-" ++ randStr29 rng t

/-- Python truthiness of an optional string argument (`None` and the
empty string are falsy). -/
def otruthy : Option String → Bool
  | none => false
  | some s => s != ""

/-- The `delta` object of a streaming chunk, following the sequential
overwrites in `generate_sse_response` (`utils.py`): content, then
`function_call_content`, then `tools_id`+`function_call_name`, then
`role`; a later truthy argument wins. -/
def sseDelta (content tools_id function_call_name function_call_content role :
    Option String) : JValue :=
  let d0 : JValue :=
    if otruthy content then .obj [("content", .str (content.getD ""))] else .obj []
  let d1 : JValue :=
    if otruthy function_call_content then
      .obj [("tool_calls", .arr [.obj [("index", .num 0),
        ("function", .obj [("arguments", .str (function_call_content.getD ""))])]])]
    else d0
  let d2 : JValue :=
    if otruthy tools_id && otruthy function_call_name then
      .obj [("tool_calls", .arr [.obj [("index", .num 0),
        ("id", .str (tools_id.getD "")), ("type", .str "function"),
        ("function", .obj [("name", .str (function_call_name.getD "")),
          ("arguments", .str "")])]])]
    else d1
  if otruthy role then .obj [("role", .str (role.getD "")), ("content", .str "")]
  else d2

/-- The member list of the JSON object built by `generate_sse_response`
(`utils.py`). -/
def sseFields (rng : RNG) (timestamp : Int) (model : String)
    (content tools_id function_call_name function_call_content role : Option String)
    (total_tokens prompt_tokens completion_tokens : Int) : List (String × JValue) :=
  let choices : JValue :=
    if total_tokens != 0 then .arr []
    else .arr [.obj [("index", .num 0),
      ("delta", sseDelta content tools_id function_call_name function_call_content role),
      ("logprobs", .null),
      ("finish_reason", if otruthy content then .null else .str "stop")]]
  let usage : JValue :=
    if total_tokens != 0 then
      .obj [("prompt_tokens", .num prompt_tokens),
        ("completion_tokens", .num completion_tokens),
        ("total_tokens", .num (prompt_tokens + completion_tokens))]
    else .null
  [("id", .str (chatcmplId rng timestamp)),
    ("object", .str "chat.completion.chunk"),
    ("created", .num timestamp),
    ("model", .str model),
    ("choices", choices),
    ("usage", usage),
    ("system_fingerprint", .str "fp_d576307f90")]

/-- The JSON object built by `generate_sse_response` (`utils.py`),
before serialization. -/
def sse_chunk_obj (rng : RNG) (timestamp : Int) (model : String)
    (content tools_id function_call_name function_call_content role : Option String)
    (total_tokens prompt_tokens completion_tokens : Int) : JValue :=
  .obj (sseFields rng timestamp model content tools_id function_call_name
    function_call_content role total_tokens prompt_tokens completion_tokens)

/-- `generate_sse_response` (`utils.py`): serialize the chunk object and
frame it as an SSE data line. -/
def generate_sse_response (rng : RNG) (timestamp : Int) (model : String)
    (content tools_id function_call_name function_call_content role : Option String)
    (total_tokens prompt_tokens completion_tokens : Int) : String :=
  "data: " ++ serialize (sse_chunk_obj rng timestamp model content tools_id
    function_call_name function_call_content role total_tokens prompt_tokens
    completion_tokens) ++ end_of_line

/-- Optional string as a JSON value (`None` becomes `null`). -/
def optStrJ : Option String → JValue
  | none => .null
  | some s => .str s

/-- The JSON object built by `generate_no_stream_response` (`utils.py`). -/
def no_stream_obj (rng : RNG) (timestamp : Int) (model : String)
    (content role : Option String)
    (total_tokens prompt_tokens completion_tokens : Int) : JValue :=
  let usage : JValue :=
    if total_tokens != 0 then
      .obj [("prompt_tokens", .num prompt_tokens),
        ("completion_tokens", .num completion_tokens),
        ("total_tokens", .num (prompt_tokens + completion_tokens))]
    else .null
  .obj [("id", .str (chatcmplId rng timestamp)),
    ("object", .str "chat.completion"),
    ("created", .num timestamp),
    ("model", .str model),
    ("choices", .arr [.obj [("index", .num 0),
      ("message", .obj [("role", optStrJ role), ("content", optStrJ content),
        ("refusal", .null)]),
      ("logprobs", .null),
      ("finish_reason", .str "stop")]]),
    ("usage", usage),
    ("system_fingerprint", .str "fp_a7d06e42a7")]

/-- `generate_no_stream_response` (`utils.py`): the serialized object,
without the `data: ` prefix. -/
def generate_no_stream_response (rng : RNG) (timestamp : Int) (model : String)
    (content role : Option String)
    (total_tokens prompt_tokens completion_tokens : Int) : String :=
  serialize (no_stream_obj rng timestamp model content role total_tokens
    prompt_tokens completion_tokens)

/-- ASCII alphanumeric test, the character class `[A-Za-z0-9]`. -/
def isAlnumAscii (c : Char) : Bool :=
  ('A' ≤ c && c ≤ 'Z') || ('a' ≤ c && c ≤ 'z') || ('0' ≤ c && c ≤ '9')

/-- The regular expression `^chatcmpl-[A-Za-z0-9]\x7b29\x7d$`: the literal
prefix, then exactly 29 alphanumerics. -/
def chatIdPattern (s : String) : Bool :=
  (s.data.take 9 == "chatcmpl-".data) &&
  (s.data.drop 9).length == 29 &&
  (s.data.drop 9).all isAlnumAscii

/-- The `id` field of an emitted chunk object, when it is a string. -/
def objIdStr : JValue → String
  | .obj kvs =>
    match jLookup kvs "id" with
    | some (.str s) => s
    | _ => ""
  | _ => ""

/-- A concrete random generator for witnesses. -/
def rngZero : RNG := fun _ _ => (0 : Fin 62)

/-- One `(count, period_seconds)` rate-limit entry. -/
structure RateEntry where
  count : Nat
  period : Int
deriving DecidableEq, Repr

/-- The state of `ThreadSafeCircularList` (`utils.py`): the item list,
the round-robin index, the per-item per-model request log, the cooling
map and the parsed rate-limit table. -/
structure ThreadSafeCircularList where
  items : List String
  index : Nat
  requests : String → String → List Int
  cooling_until : String → Int
  rate_limits : List (String × List RateEntry)
  schedule_algorithm : String

/-- Python truthiness of the optional `model` argument. -/
def truthy : Option String → Bool
  | none => false
  | some s => s != ""

/-- The request-log key: the model name when truthy, else `"default"`. -/
def modelKey (model : Option String) : String :=
  if truthy model then model.getD "" else "default"

/-- Dict lookup in the rate-limit table. -/
def lookupRL (rls : List (String × List RateEntry)) (k : String) :
    Option (List RateEntry) :=
  (rls.find? (fun p => p.1 == k)).map (fun p => p.2)

/-- Rate-limit resolution of `is_rate_limited` (`utils.py`): exact match
on the model name, else the first non-`"default"` pattern that is a
substring of the model name, else the `"default"` entry, else the
hard-coded fallback `[(999999, 60)]`. -/
def resolveLimits (rls : List (String × List RateEntry)) (model : Option String) :
    List RateEntry :=
  match (if truthy model then lookupRL rls (model.getD "") else none) with
  | some l => l
  | none =>
    match rls.find? (fun p =>
        (p.1 != "default") && truthy model && containsSub p.1 (model.getD "")) with
    | some p => p.2
    | none => (lookupRL rls "default").getD [⟨999999, 60⟩]

/-- The per-entry window check of `is_rate_limited`: true as soon as the
number of logged timestamps newer than `now - period` reaches `count`. -/
def checkLimits (log : List Int) (now : Int) : List RateEntry → Bool
  | [] => false
  | e :: rest =>
    if e.count ≤ (log.filter (fun r => now - e.period < r)).length then true
    else checkLimits log now rest

/-- Python `max` over a list (undefined on `[]` in Python; rate-limit
lists produced by `parse_rate_limit` are never empty, see the
well-formedness hypotheses of the theorems). -/
def listMax : List Int → Int
  | [] => 0
  | h :: t => t.foldl max h

/-- `ThreadSafeCircularList.is_rate_limited` (`utils.py`): cooling check,
window checks, then — only when not limited — lazy trimming of entries
older than the longest period followed by appending `now`. -/
def is_rate_limited (s : ThreadSafeCircularList) (now : Int) (item : String)
    (model : Option String) : Bool × ThreadSafeCircularList :=
  if now < s.cooling_until item then (true, s)
  else
    let mk := modelKey model
    let rl := resolveLimits s.rate_limits model
    let log := s.requests item mk
    if checkLimits log now rl then (true, s)
    else
      let maxPeriod := listMax (rl.map (fun e => e.period))
      let newlog := (log.filter (fun r => now - maxPeriod < r)) ++ [now]
      (false,
        { s with requests :=
            Function.update s.requests item (Function.update (s.requests item) mk newlog) })

/-- Outcome of `next`: Python's uncaught `IndexError` on an empty pool,
or the `HTTPException(429)` when every key is limited. -/
inductive NextErr where
  | indexError : NextErr
  | rateLimited : NextErr
deriving DecidableEq, Repr

/-- The selection loop of `next` (`utils.py`): read the item at `index`,
advance `index` modulo the length, return the item if not rate limited;
after a full pass of limited items, fail with 429. The fuel is the
number of items, the exact number of probes before the loop detects
`index == start_index` again. -/
def nextAux (now : Int) (model : Option String) :
    ThreadSafeCircularList → Nat → Except NextErr (String × ThreadSafeCircularList)
  | _, 0 => .error .rateLimited
  | s, fuel + 1 =>
    match s.items.get? s.index with
    | none => .error .indexError
    | some item =>
      match is_rate_limited { s with index := (s.index + 1) % s.items.length } now item model with
      | (true, s2) => nextAux now model s2 fuel
      | (false, s2) => .ok (item, s2)

/-- `ThreadSafeCircularList.next` (`utils.py`): reset the index for
fixed-priority scheduling, then run the selection loop; on an empty item
list Python raises `IndexError` at `self.items[self.index]`. -/
def tscl_next (s : ThreadSafeCircularList) (now : Int) (model : Option String) :
    Except NextErr (String × ThreadSafeCircularList) :=
  let s0 := if s.schedule_algorithm == "fixed_priority" then { s with index := 0 } else s
  if s0.items.isEmpty then .error .indexError
  else nextAux now model s0 s0.items.length

/-- `ThreadSafeCircularList.after_next_current` (`utils.py`): `None` on
an empty pool, else the item at `(index - 1) mod len` (Python modulo on
a possibly negative number). -/
def after_next_current (s : ThreadSafeCircularList) : Option String :=
  if s.items.length = 0 then none
  else s.items.get? (((s.index : Int) - 1).emod s.items.length).toNat

/-- Run a sequence of `next(model)` calls at given times; a raised
exception leaves the pool's logs and cooling map unchanged. -/
def execCalls (s : ThreadSafeCircularList) : List (Int × Option String) →
    ThreadSafeCircularList
  | [] => s
  | (now, m) :: rest =>
    match tscl_next s now m with
    | .ok (_, s') => execCalls s' rest
    | .error _ => execCalls s rest

/-- Membership of a timestamp in the sliding window `(t - p, t]`. -/
def inWindow (t p r : Int) : Bool :=
  t - p < r && r ≤ t

/-- The rate-limit invariant: for every credential, every model and
every applicable `(count, period)` entry, no sliding window of length
`period` contains more than `count` logged timestamps. -/
def WindowBound (rls : List (String × List RateEntry)) (s : ThreadSafeCircularList) :
    Prop :=
  ∀ item m e, e ∈ resolveLimits rls m → ∀ t : Int,
    ((s.requests item (modelKey m)).filter (fun r => inWindow t e.period r)).length ≤ e.count

/-- The HTTP error raised by the first-chunk content check. -/
structure HTTPErr where
  status_code : JValue
  detail : String

/-- Python equality with the sentinel empty-error object
`\x7b"message": "", "type": "", "param": "", "code": None\x7d`
(`check_response_content`, `utils.py`); dict equality is key-set based,
and decoded JSON objects have unique keys. -/
def isEmptyErrorVal : JValue → Bool
  | .obj kvs =>
    kvs.length == 4 &&
    (match jLookup kvs "message" with | some (.str s) => s == "" | _ => false) &&
    (match jLookup kvs "type" with | some (.str s) => s == "" | _ => false) &&
    (match jLookup kvs "param" with | some (.str s) => s == "" | _ => false) &&
    (match jLookup kvs "code" with | some .null => true | _ => false)
  | _ => false

/-- The dict branch of `check_response_content` (`utils.py`): when the
decoded object carries an `error` key whose value differs from the empty
sentinel, raise an HTTP error with the object's `status_code` (500 when
absent) and the `details` value (the whole object when absent) rendered
by Python string formatting `pyStr` and truncated to 300 characters. -/
def checkDictError (pyStr : JValue → String) (content : List (String × JValue)) :
    Option HTTPErr :=
  match jLookup content "error" with
  | none => none
  | some errv =>
    if isEmptyErrorVal errv then none
    else
      let status := (jLookup content "status_code").getD (.num 500)
      let detail : String :=
        match jLookup content "details" with
        | some d => pyStr d
        | none => pyStr (.obj content)
      some ⟨status, ⟨detail.data.take 300⟩⟩

/-- An event yielded by a stream adapter: an SSE string, or the raw
error dict yielded after a non-2xx upstream status. -/
inductive Ev where
  | str (s : String) : Ev
  | errObj (e : JValue) : Ev

/-- Number of terminal `data: [DONE]` events in an output sequence. -/
def countDone (evs : List Ev) : Nat :=
  (evs.filter (fun e => match e with | .str s => s == doneStr | _ => false)).length

/-- Abstract `json.loads` restricted to inputs that decode to a JSON
object (every decoded value the adapters subscript must be a dict, and a
non-dict decode is one of the modelled crashes). -/
def JParse : Type := String → Option (List (String × JValue))

/-- Trigger substring `"finishReason": "` of the Gemini adapter. -/
def gemFinishMarker : String := "\"finishReason\": \""

/-- Trigger substring `"text": "` of the Gemini adapter. -/
def gemTextMarker : String := "\"text\": \""

/-- Trigger substring `"functionCall": \x7b` of the Gemini adapter. -/
def gemFcMarker : String := "\"functionCall\": \x7b"

/-- The synthetic tool-call id hard-coded in the Gemini adapter. -/
def gemToolId : String := "chatcmpl-9inWv0yEtgn873CxMBzHeCeiHctTV"

/-- Accumulation state of the Gemini adapter's function-call scanner. -/
structure GemSt where
  revicing : Bool
  funcBuf : String
  needFC : Bool

/-- Initial scanner state: `function_full_response = "\x7b"`. -/
def gemInitSt : GemSt := ⟨false, "\x7b", false⟩

/-- The text branch of one Gemini line (`fetch_gemini_response_stream`,
`response.py`): wrap the line in braces, decode, read `text` (default
`""`), replace `"\\n"` by newlines, emit one text delta. A decode
failure is caught and skipped; a non-string `text` value crashes
(uncaught `AttributeError` on `split`). -/
def gemTextEvents (parse : JParse) (rng : RNG) (t : Int) (model : String)
    (line : String) : Except Unit (List Ev) :=
  if line != "" && containsSub gemTextMarker line then
    match parse ("\x7b" ++ line ++ "\x7d") with
    | none => .ok []
    | some obj =>
      match jLookup obj "text" with
      | some (.str s) =>
        .ok [Ev.str (generate_sse_response rng t model (some (gemTextContent s))
          none none none none 0 0 0)]
      | none =>
        .ok [Ev.str (generate_sse_response rng t model (some (gemTextContent ""))
          none none none none 0 0 0)]
      | some _ => .error ()
  else .ok []

/-- The function-call branch of one Gemini line: start/continue
accumulation, closing on a line that contains `']'`. -/
def gemFcStep (st : GemSt) (line : String) : GemSt :=
  if line != "" && (containsSub gemFcMarker line || st.revicing) then
    if line.data.contains ']' then ⟨false, st.funcBuf, true⟩
    else ⟨true, st.funcBuf ++ line, true⟩
  else st

/-- The Gemini line loop: stop (leaving the remaining lines unread) at
the first line containing `"finishReason": "`, otherwise run the text
branch then the function-call branch of each line. -/
def gemLines (parse : JParse) (rng : RNG) (t : Int) (model : String) :
    GemSt → List String → Except Unit (List Ev × GemSt)
  | st, [] => .ok ([], st)
  | st, line :: rest =>
    if line != "" && containsSub gemFinishMarker line then .ok ([], st)
    else
      match gemTextEvents parse rng t model line with
      | .error _ => .error ()
      | .ok evs =>
        match gemLines parse rng t model (gemFcStep st line) rest with
        | .error _ => .error ()
        | .ok (evs', st') => .ok (evs ++ evs', st')

/-- After the Gemini line loop: when accumulation happened, decode the
buffer and emit the tool-call-open and tool-call-arguments events; any
decode or shape failure is an uncaught exception. -/
def gemFinish (parse : JParse) (rng : RNG) (t : Int) (model : String)
    (st : GemSt) : Except Unit (List Ev) :=
  if st.needFC then
    match parse st.funcBuf with
    | none => .error ()
    | some fc =>
      match jLookup fc "functionCall" with
      | some (.obj f) =>
        match jLookup f "name" with
        | some (.str nm) =>
          match jLookup f "args" with
          | some args =>
            .ok [Ev.str (generate_sse_response rng t model none (some gemToolId)
                  (some nm) none none 0 0 0),
                 Ev.str (generate_sse_response rng t model none (some gemToolId)
                  none (some (serialize args)) none 0 0 0)]
          | none => .error ()
        | _ => .error ()
      | _ => .error ()
  else .ok []

/-- `fetch_gemini_response_stream` (`response.py`) on a given upstream
chunk sequence: on a non-2xx check, yield the error dict and stop;
otherwise process complete lines, run the tool-call epilogue, and always
yield the terminal `data: [DONE]` line. -/
def fetchGeminiStream (parse : JParse) (rng : RNG) (t : Int) (model : String)
    (err : Option JValue) (chunks : List String) : Except Unit (List Ev) :=
  match err with
  | some e => .ok [Ev.errObj e]
  | none =>
    match gemLines parse rng t model gemInitSt (linesOf chunks) with
    | .error _ => .error ()
    | .ok (evs, st) =>
      match gemFinish parse rng t model st with
      | .error _ => .error ()
      | .ok evs2 => .ok (evs ++ evs2 ++ [Ev.str doneStr])

/-- The role sub-block of a Claude `message`: a truthy `role` yields a
role-announce event; a truthy non-string role is an uncaught failure. -/
def claudeRolePart (rng : RNG) (t : Int) (model : String)
    (msg : List (String × JValue)) : Except Unit (List Ev) :=
  match jLookup msg "role" with
  | none => .ok []
  | some rv =>
    if jTruthy rv then
      match rv with
      | .str rs =>
        .ok [Ev.str (generate_sse_response rng t model none none none none
          (some rs) 0 0 0)]
      | _ => .error ()
    else .ok []

/-- The token sub-block of a Claude `message`: a truthy `usage` records
`input_tokens` (default 0). -/
def claudeTokPart (inTok : Int) (msg : List (String × JValue)) : Except Unit Int :=
  match jLookup msg "usage" with
  | none => .ok inTok
  | some tv =>
    if jTruthy tv then
      match tv with
      | .obj tu =>
        match jLookup tu "input_tokens" with
        | some (.num n) => .ok n
        | none => .ok 0
        | some _ => .error ()
      | _ => .error ()
    else .ok inTok

/-- The `message` block of one Claude event
(`fetch_claude_response_stream`, `response.py`): a truthy `message`
yields a role-announce event for a truthy `role` and records
`usage.input_tokens`. -/
def claudeMsgPart (rng : RNG) (t : Int) (model : String) (inTok : Int)
    (resp : List (String × JValue)) : Except Unit (List Ev × Int) :=
  match jLookup resp "message" with
  | none => .ok ([], inTok)
  | some mv =>
    if jTruthy mv then
      match mv with
      | .obj msg =>
        match claudeRolePart rng t model msg with
        | .error _ => .error ()
        | .ok evs =>
          match claudeTokPart inTok msg with
          | .error _ => .error ()
          | .ok tok => .ok (evs, tok)
      | _ => .error ()
    else .ok ([], inTok)

/-- The `usage` block of one Claude event: emit the usage chunk with
`total = input + output`. -/
def claudeUsagePart (rng : RNG) (t : Int) (model : String) (inTok : Int)
    (resp : List (String × JValue)) : Except Unit (List Ev) :=
  match jLookup resp "usage" with
  | none => .ok []
  | some uv =>
    if jTruthy uv then
      match uv with
      | .obj uo =>
        match (match jLookup uo "output_tokens" with
               | some (.num n) => Except.ok n
               | none => Except.ok 0
               | some _ => Except.error ()) with
        | .error _ => .error ()
        | .ok output =>
          .ok [Ev.str (generate_sse_response rng t model none none none none none
            (inTok + output) inTok output)]
      | _ => .error ()
    else .ok []

/-- The `content_block` block of one Claude event: a
`type == "tool_use"` block with a `name` yields a tool-call-open
event (subscripting `type` and `id` crashes when absent). -/
def claudeToolPart (rng : RNG) (t : Int) (model : String)
    (resp : List (String × JValue)) : Except Unit (List Ev) :=
  match jLookup resp "content_block" with
  | none => .ok []
  | some cv =>
    if jTruthy cv then
      match cv with
      | .obj cb =>
        match jLookup cb "type" with
        | none => .error ()
        | some (.str "tool_use") =>
          match jLookup cb "id" with
          | none => .error ()
          | some (.str tid) =>
            match jLookup cb "name" with
            | none => .ok []
            | some (.str nm) =>
              .ok [Ev.str (generate_sse_response rng t model none (some tid)
                (some nm) none none 0 0 0)]
            | some _ => .error ()
          | some _ => .error ()
        | some _ => .ok []
      | _ => .error ()
    else .ok []

/-- The `text` sub-block of a Claude `delta`: a string `text` member
yields a text delta; a present non-string crashes. -/
def claudeDeltaTextPart (rng : RNG) (t : Int) (model : String)
    (d : List (String × JValue)) : Except Unit (List Ev) :=
  match jLookup d "text" with
  | none => .ok []
  | some (.str c) =>
    .ok [Ev.str (generate_sse_response rng t model (some c) none none none none 0 0 0)]
  | some _ => .error ()

/-- The `partial_json` sub-block of a Claude `delta`: a string member
yields a tool-call-arguments delta. -/
def claudeDeltaJsonPart (rng : RNG) (t : Int) (model : String)
    (d : List (String × JValue)) : Except Unit (List Ev) :=
  match jLookup d "partial_json" with
  | none => .ok []
  | some (.str fc) =>
    .ok [Ev.str (generate_sse_response rng t model none none none (some fc) none 0 0 0)]
  | some _ => .error ()

/-- The `delta` block of one Claude event: a falsy `delta` skips the
rest of the loop body; `text` yields a text delta and then
`partial_json` a tool-call-arguments delta. -/
def claudeDeltaPart (rng : RNG) (t : Int) (model : String)
    (resp : List (String × JValue)) : Except Unit (List Ev) :=
  match jLookup resp "delta" with
  | none => .ok []
  | some dv =>
    if jTruthy dv then
      match dv with
      | .obj d =>
        match claudeDeltaTextPart rng t model d with
        | .error _ => .error ()
        | .ok evs1 =>
          match claudeDeltaJsonPart rng t model d with
          | .error _ => .error ()
          | .ok evs2 => .ok (evs1 ++ evs2)
      | _ => .error ()
    else .ok []

/-- All events of one decoded Claude payload: message, usage, tool and
delta blocks in program order, threading `input_tokens`. -/
def claudeRespEvents (rng : RNG) (t : Int) (model : String) (inTok : Int)
    (resp : List (String × JValue)) : Except Unit (List Ev × Int) :=
  match claudeMsgPart rng t model inTok resp with
  | .error _ => .error ()
  | .ok (evs1, inTok') =>
    match claudeUsagePart rng t model inTok' resp with
    | .error _ => .error ()
    | .ok evs2 =>
      match claudeToolPart rng t model resp with
      | .error _ => .error ()
      | .ok evs3 =>
        match claudeDeltaPart rng t model resp with
        | .error _ => .error ()
        | .ok evs4 => .ok (evs1 ++ evs2 ++ evs3 ++ evs4, inTok')

/-- One Claude line: only `data:`-prefixed lines are processed; the
stripped remainder must decode (uncaught `json.loads` otherwise). -/
def claudeLineEvents (parse : JParse) (rng : RNG) (t : Int) (model : String)
    (inTok : Int) (line : String) : Except Unit (List Ev × Int) :=
  if strStartsWith line "data:" then
    match parse (pyLstrip dataStripChars line) with
    | none => .error ()
    | some resp => claudeRespEvents rng t model inTok resp
  else .ok ([], inTok)

/-- The Claude line loop. -/
def claudeLines (parse : JParse) (rng : RNG) (t : Int) (model : String) :
    Int → List String → Except Unit (List Ev)
  | _, [] => .ok []
  | inTok, line :: rest =>
    match claudeLineEvents parse rng t model inTok line with
    | .error _ => .error ()
    | .ok (evs, inTok') =>
      match claudeLines parse rng t model inTok' rest with
      | .error _ => .error ()
      | .ok evs' => .ok (evs ++ evs')

/-- `fetch_claude_response_stream` (`response.py`): on a non-2xx check
yield the error dict and stop; otherwise process every complete line
and end with the terminal `data: [DONE]` line. -/
def fetchClaudeStream (parse : JParse) (rng : RNG) (t : Int) (model : String)
    (err : Option JValue) (chunks : List String) : Except Unit (List Ev) :=
  match err with
  | some e => .ok [Ev.errObj e]
  | none =>
    match claudeLines parse rng t model 0 (linesOf chunks) with
    | .error _ => .error ()
    | .ok evs => .ok (evs ++ [Ev.str doneStr])

/-- The per-line event of the GPT adapter after the id rewrite: a truthy
non-streaming `choices[0].message.content` is re-emitted through
`generate_sse_response` (seeded from the payload's `created` field),
otherwise the rewritten JSON is re-framed as a raw `data:` line. -/
def gptContentEvent (rng : RNG) (obj : List (String × JValue)) : Except Unit Ev :=
  let nsc := safe_get (.obj obj) [PKey.k "choices", PKey.i 0, PKey.k "message",
    PKey.k "content"]
  if jTruthyO nsc then
    match nsc, jLookup obj "created", jLookup obj "model" with
    | some (.str s), some (.num created), some (.str mdl) =>
      .ok (Ev.str (generate_sse_response rng created mdl (some s) none none none
        none 0 0 0))
    | _, _, _ => .error ()
  else .ok (Ev.str ("data: " ++ pyStrip (serialize (.obj obj)) ++ end_of_line))

/-- The GPT line loop (`fetch_gpt_response_stream`, `response.py`):
skip blank, bare-`data:` and comment lines; a `[DONE]` marker emits the
terminal line and returns at once; other lines must decode (uncaught
`json.loads` otherwise), get their `id` overwritten, and are re-emitted.
There is no epilogue: a stream that ends without `[DONE]` emits no
terminal line. -/
def gptLines (parse : JParse) (rng : RNG) (t : Int) : List String → Except Unit (List Ev)
  | [] => .ok []
  | line :: rest =>
    if line != "" && line != "data: " && line != "data:" && !(strStartsWith line ": ") then
      let result := pyLstrip dataStripChars line
      if pyStrip result == "[DONE]" then .ok [Ev.str doneStr]
      else
        match parse result with
        | none => .error ()
        | some obj =>
          match gptContentEvent rng (objSet obj "id" (.str (chatcmplId rng t))) with
          | .error _ => .error ()
          | .ok ev =>
            match gptLines parse rng t rest with
            | .error _ => .error ()
            | .ok evs => .ok (ev :: evs)
    else gptLines parse rng t rest

/-- `fetch_gpt_response_stream` (`response.py`) on a given upstream
chunk sequence. -/
def fetchGptStream (parse : JParse) (rng : RNG) (t : Int)
    (err : Option JValue) (chunks : List String) : Except Unit (List Ev) :=
  match err with
  | some e => .ok [Ev.errObj e]
  | none => gptLines parse rng t (linesOf chunks)

/-- The pool state produced by a non-limited `is_rate_limited` call:
the checked pair's log is trimmed of entries older than the largest
applicable period and the current timestamp is appended; nothing else
changes. -/
def irlUpdate (s : ThreadSafeCircularList) (now : Int) (item : String)
    (m : Option String) : ThreadSafeCircularList :=
  let newlog := (s.requests item (modelKey m)).filter (fun r =>
    now - listMax ((resolveLimits s.rate_limits m).map (fun e => e.period)) < r) ++ [now]
  { s with requests := Function.update s.requests item (Function.update (s.requests item) (modelKey m) newlog) }

/-- A one-key pool with an empty log, rate limit `5/60s`, used to
exhibit the append performed by `is_rate_limited`. -/
def c3pool : ThreadSafeCircularList :=
  ⟨["k1"], 0, fun _ _ => [], fun _ => 0, [("default", [⟨5, 60⟩])], "round_robin"⟩

/-- The same pool with credential `k1` cooling until time 1000. -/
def c3poolCooling : ThreadSafeCircularList :=
  ⟨["k1"], 0, fun _ _ => [], fun _ => 1000, [("default", [⟨5, 60⟩])], "round_robin"⟩

/-- An empty pool. -/
def c9pool : ThreadSafeCircularList :=
  ⟨[], 0, fun _ _ => [], fun _ => 0, [("default", [⟨1, 60⟩])], "round_robin"⟩

/-- A one-key pool with rate limit `2/60s` for the C1 witness. -/
def c1pool : ThreadSafeCircularList :=
  ⟨["k1"], 0, fun _ _ => [], fun _ => 0, [("default", [⟨2, 60⟩])], "round_robin"⟩

/-- A pretty-printed Gemini text line whose JSON string holds the
two-character sequence backslash-`n`. -/
def c8line1 : String := "      \"text\": \"hello\\nworld\""

/-- A pretty-printed Gemini finish line. -/
def c8line2 : String := "      \"finishReason\": \"STOP\","

/-- A further text line behind the finish line, which must stay
unprocessed. -/
def c8line3 : String := "      \"text\": \"dropped\""

/-- One upstream chunk carrying the three lines. -/
def c8chunk : String := c8line1 ++ "\n" ++ c8line2 ++ "\n" ++ c8line3 ++ "\n"

/-- `json.loads` on the brace-wrapped first line: the JSON escape
`\n` decodes to a real newline. Any other input (in particular the
wrapped third line, never reached) fails to decode. -/
def c8parse : JParse := fun s =>
  if s == "\x7b" ++ c8line1 ++ "\x7d" then some [("text", .str "hello\nworld")]
  else none

theorem strDataAppend (s t : String) : (s ++ t).data = s.data ++ t.data := by
  cases s
  cases t
  rfl

theorem alnumAlphabet : ∀ n : Fin 62, isAlnumAscii (idAlphabetChars.getD n.val 'a') = true := by
  decide

theorem randStr29_data (rng : RNG) (t : Int) :
    (randStr29 rng t).data =
      List.ofFn (fun i : Fin 29 => idAlphabetChars.getD (rng t i).val 'a') := rfl

theorem chatIdPattern_chatcmplId (rng : RNG) (t : Int) :
    chatIdPattern (chatcmplId rng t) = true := by
  have hdata : (chatcmplId rng t).data =
      "chatcmpl-".data ++ List.ofFn (fun i : Fin 29 => idAlphabetChars.getD (rng t i).val 'a') := by
    rw [chatcmplId, strDataAppend, randStr29_data]
  have h9 : "chatcmpl-".data.length = 9 := rfl
  unfold chatIdPattern
  rw [hdata, ← h9, List.take_left, List.drop_left]
  simp only [List.length_ofFn, beq_self_eq_true, Bool.true_and, Bool.and_true, Nat.reduceBEq]
  rw [List.all_eq_true]
  intro c hc
  obtain ⟨i, rfl⟩ := Set.mem_range.mp ((List.mem_ofFn _ _).mp hc)
  exact alnumAlphabet (rng t i)

/-- C5: the chat id embedded in emitted events is a deterministic
function of the request timestamp — the streaming and non-streaming
emitters at the same timestamp carry the same id
`chatcmpl-<random29>` — and every emitted id matches the pattern
`^chatcmpl-[A-Za-z0-9]\x7b29\x7d$`. -/
theorem c5_chat_id_deterministic_and_well_formed (rng : RNG) (t : Int)
    (m1 m2 : String) (content tools_id fname fcontent role : Option String)
    (tt pt ct : Int) (content2 role2 : Option String) (tt2 pt2 ct2 : Int) :
    objIdStr (sse_chunk_obj rng t m1 content tools_id fname fcontent role tt pt ct) =
      chatcmplId rng t ∧
    objIdStr (no_stream_obj rng t m2 content2 role2 tt2 pt2 ct2) = chatcmplId rng t ∧
    chatIdPattern (chatcmplId rng t) = true :=
  ⟨rfl, rfl, chatIdPattern_chatcmplId rng t⟩

/-- C10: a streaming chunk whose `content` argument is the empty string
has the empty `delta` object and `finish_reason` `"stop"`; it is the
very same chunk produced with no content at all. -/
theorem c10_empty_content_is_stop_chunk (rng : RNG) (t : Int) (model : String) :
    sse_chunk_obj rng t model (some "") none none none none 0 0 0 =
      sse_chunk_obj rng t model none none none none none 0 0 0 ∧
    safe_get (sse_chunk_obj rng t model (some "") none none none none 0 0 0)
      [PKey.k "choices", PKey.i 0, PKey.k "delta"] = some (.obj []) ∧
    safe_get (sse_chunk_obj rng t model (some "") none none none none 0 0 0)
      [PKey.k "choices", PKey.i 0, PKey.k "finish_reason"] = some (.str "stop") :=
  ⟨rfl, rfl, rfl⟩

/-- C6 counterexample: a role-announce chunk (role present, no content)
carries `finish_reason` `"stop"`, not `null` as the claim states for
every combination of arguments. -/
theorem c6_counterexample :
    safe_get (sse_chunk_obj rngZero 0 "m" none none none none (some "assistant") 0 0 0)
      [PKey.k "choices", PKey.i 0, PKey.k "finish_reason"] = some (.str "stop") ∧
    JValue.str "stop" ≠ JValue.null :=
  ⟨rfl, fun h => JValue.noConfusion h⟩

/-- C6 amended: outside the usage variant (`total_tokens = 0`), every
streaming chunk has exactly the documented shape — one choice with
`index` 0, the computed `delta`, `logprobs` `null`, top-level `usage`
`null` and the fingerprint — except that `finish_reason` is `null` only
when `content` is non-empty and is `"stop"` otherwise. -/
theorem c6_amended_chunk_shape (rng : RNG) (t : Int) (model : String)
    (content tools_id fname fcontent role : Option String) (pt ct : Int) :
    sse_chunk_obj rng t model content tools_id fname fcontent role 0 pt ct =
      JValue.obj [("id", .str (chatcmplId rng t)),
        ("object", .str "chat.completion.chunk"),
        ("created", .num t),
        ("model", .str model),
        ("choices", .arr [.obj [("index", .num 0),
          ("delta", sseDelta content tools_id fname fcontent role),
          ("logprobs", .null),
          ("finish_reason", if otruthy content then JValue.null else .str "stop")]]),
        ("usage", .null),
        ("system_fingerprint", .str "fp_d576307f90")] := rfl

/-- C7: whenever `total_tokens` is truthy the emitted chunk replaces
`choices` with `[]` and populates `usage` with
`total_tokens = prompt_tokens + completion_tokens`, whatever total the
upstream supplied. -/
theorem c7_usage_total_recomputed (rng : RNG) (t : Int) (model : String)
    (content tools_id fname fcontent role : Option String)
    (total pt ct : Int) (h : total ≠ 0) :
    sse_chunk_obj rng t model content tools_id fname fcontent role total pt ct =
      JValue.obj [("id", .str (chatcmplId rng t)),
        ("object", .str "chat.completion.chunk"),
        ("created", .num t),
        ("model", .str model),
        ("choices", .arr []),
        ("usage", .obj [("prompt_tokens", .num pt),
          ("completion_tokens", .num ct),
          ("total_tokens", .num (pt + ct))]),
        ("system_fingerprint", .str "fp_d576307f90")] := by
  have hb : (total != 0) = true := by simpa using h
  simp [sse_chunk_obj, sseFields, hb]

/-- C7 witness: the usage chunk at `total = 99`, `prompt = 2`,
`completion = 3` reports `total_tokens = 5`. -/
theorem c7_usage_total_recomputed_witness :
    (99 : Int) ≠ 0 ∧
    sse_chunk_obj rngZero 0 "m" none none none none none 99 2 3 =
      JValue.obj [("id", .str (chatcmplId rngZero 0)),
        ("object", .str "chat.completion.chunk"),
        ("created", .num 0),
        ("model", .str "m"),
        ("choices", .arr []),
        ("usage", .obj [("prompt_tokens", .num 2),
          ("completion_tokens", .num 3),
          ("total_tokens", .num (2 + 3))]),
        ("system_fingerprint", .str "fp_d576307f90")] :=
  ⟨by decide, c7_usage_total_recomputed rngZero 0 "m" none none none none none 99 2 3
    (by decide)⟩

/-- C9: on a pool with an empty items list, `next` fails with the
uncaught `IndexError` from indexing the empty list — not with the
rate-limited HTTP 429 failure — while `after_next_current` returns
`None`. -/
theorem c9_empty_pool_index_error (s : ThreadSafeCircularList) (now : Int)
    (m : Option String) (h : s.items = []) :
    tscl_next s now m = .error .indexError ∧
    tscl_next s now m ≠ .error .rateLimited ∧
    after_next_current s = none := by
  have hmain : tscl_next s now m = .error .indexError := by
    by_cases hs : s.schedule_algorithm == "fixed_priority" <;>
      simp [tscl_next, hs, h]
  refine ⟨hmain, ?_, ?_⟩
  · rw [hmain]
    intro hcontra
    have : NextErr.indexError = NextErr.rateLimited := by
      injection hcontra
    cases this
  · simp [after_next_current, h]

/-- C9 witness: the concrete empty pool. -/
theorem c9_empty_pool_index_error_witness :
    c9pool.items = [] ∧
    tscl_next c9pool 0 none = .error .indexError ∧
    tscl_next c9pool 0 none ≠ .error .rateLimited ∧
    after_next_current c9pool = none :=
  ⟨rfl, c9_empty_pool_index_error c9pool 0 none rfl⟩

/-- C3 counterexample: on a fresh pool, a single non-limited call to
`is_rate_limited` appends the current timestamp to the request log — the
log is not left unchanged up to trimming, and recording does not happen
only inside `next`. -/
theorem c3_counterexample :
    (is_rate_limited c3pool 100 "k1" none).1 = false ∧
    c3pool.requests "k1" "default" = [] ∧
    (is_rate_limited c3pool 100 "k1" none).2.requests "k1" "default" = [100] :=
  ⟨rfl, rfl, by decide⟩


theorem irl_true_frame (s : ThreadSafeCircularList) (now : Int) (item : String)
    (m : Option String) (h : (is_rate_limited s now item m).1 = true) :
    (is_rate_limited s now item m).2 = s := by
  by_cases h1 : now < s.cooling_until item
  · simp [is_rate_limited, h1]
  · by_cases h2 : checkLimits (s.requests item (modelKey m)) now
      (resolveLimits s.rate_limits m) = true
    · simp [is_rate_limited, h1, h2]
    · exfalso
      have h2' : checkLimits (s.requests item (modelKey m)) now
          (resolveLimits s.rate_limits m) = false := by
        simpa using h2
      simp [is_rate_limited, h1, h2'] at h

theorem irl_false_result (s : ThreadSafeCircularList) (now : Int) (item : String)
    (m : Option String) (h : (is_rate_limited s now item m).1 = false) :
    ¬ now < s.cooling_until item ∧
    checkLimits (s.requests item (modelKey m)) now (resolveLimits s.rate_limits m) = false ∧
    (is_rate_limited s now item m).2 = irlUpdate s now item m := by
  by_cases h1 : now < s.cooling_until item
  · simp [is_rate_limited, h1] at h
  · by_cases h2 : checkLimits (s.requests item (modelKey m)) now
      (resolveLimits s.rate_limits m) = true
    · simp [is_rate_limited, h1, h2] at h
    · have h2' : checkLimits (s.requests item (modelKey m)) now
          (resolveLimits s.rate_limits m) = false := by
        simpa using h2
      exact ⟨h1, h2', by simp [is_rate_limited, irlUpdate, h1, h2']⟩

/-- C3 amended: when `is_rate_limited` returns true it leaves the pool
unchanged; when it returns false it rewrites only the log of the checked
`(credential, model_key)` pair, to the old log trimmed of entries older
than the largest applicable period followed by the newly appended
current timestamp — so the call does record a request, contrary to the
claim's "never appends". -/
theorem c3_amended_is_rate_limited_effect (s : ThreadSafeCircularList) (now : Int)
    (item : String) (m : Option String) :
    ((is_rate_limited s now item m).1 = true → (is_rate_limited s now item m).2 = s) ∧
    ((is_rate_limited s now item m).1 = false →
      (is_rate_limited s now item m).2.requests item (modelKey m) =
        (s.requests item (modelKey m)).filter (fun r =>
          now - listMax ((resolveLimits s.rate_limits m).map (fun e => e.period)) < r)
          ++ [now] ∧
      (∀ item' k', ¬ (item' = item ∧ k' = modelKey m) →
        (is_rate_limited s now item m).2.requests item' k' = s.requests item' k') ∧
      (is_rate_limited s now item m).2.cooling_until = s.cooling_until ∧
      (is_rate_limited s now item m).2.items = s.items ∧
      (is_rate_limited s now item m).2.index = s.index ∧
      (is_rate_limited s now item m).2.rate_limits = s.rate_limits ∧
      (is_rate_limited s now item m).2.schedule_algorithm = s.schedule_algorithm) := by
  constructor
  · exact irl_true_frame s now item m
  · intro h
    obtain ⟨h1, h2, h3⟩ := irl_false_result s now item m h
    rw [h3]
    refine ⟨?_, ?_, rfl, rfl, rfl, rfl, rfl⟩
    · simp [irlUpdate]
    · intro item' k' hne
      by_cases hi : item' = item
      · subst hi
        have hk : k' ≠ modelKey m := fun hk => hne ⟨rfl, hk⟩
        simp [irlUpdate, Function.update_noteq hk]
      · simp [irlUpdate, Function.update_noteq hi]

/-- C3 amended witness: on the fresh pool the non-limited call appends
`100`; on the cooling pool the limited call leaves the pool unchanged. -/
theorem c3_amended_is_rate_limited_effect_witness :
    (is_rate_limited c3pool 100 "k1" none).1 = false ∧
    (is_rate_limited c3pool 100 "k1" none).2.requests "k1" "default" =
      (c3pool.requests "k1" "default").filter (fun r =>
        100 - listMax ((resolveLimits c3pool.rate_limits none).map (fun e => e.period)) < r)
        ++ [100] ∧
    (is_rate_limited c3poolCooling 100 "k1" none).1 = true ∧
    (is_rate_limited c3poolCooling 100 "k1" none).2 = c3poolCooling :=
  ⟨rfl, ((c3_amended_is_rate_limited_effect c3pool 100 "k1" none).2 rfl).1, rfl,
   (c3_amended_is_rate_limited_effect c3poolCooling 100 "k1" none).1 rfl⟩

theorem length_filter_mono {α : Type} (l : List α) (p q : α → Bool)
    (h : ∀ a, p a = true → q a = true) :
    (l.filter p).length ≤ (l.filter q).length := by
  induction l with
  | nil => simp
  | cons a l ih =>
    by_cases hp : p a = true
    · rw [List.filter_cons_of_pos hp, List.filter_cons_of_pos (h a hp)]
      simpa using ih
    · rw [List.filter_cons_of_neg (by simpa using hp)]
      cases hq : q a with
      | true =>
        rw [List.filter_cons_of_pos hq]
        exact le_trans ih (Nat.le_succ _)
      | false =>
        rw [List.filter_cons_of_neg (by simp [hq])]
        exact ih

theorem checkLimits_false {log : List Int} {now : Int} {L : List RateEntry}
    (h : checkLimits log now L = false) :
    ∀ e ∈ L, (log.filter (fun r => now - e.period < r)).length < e.count := by
  induction L with
  | nil => simp
  | cons e rest ih =>
    unfold checkLimits at h
    by_cases hc : e.count ≤ (log.filter (fun r => now - e.period < r)).length
    · rw [if_pos hc] at h
      cases h
    · rw [if_neg hc] at h
      intro e' he'
      rcases List.mem_cons.mp he' with rfl | hm
      · omega
      · exact ih h e' hm

theorem resolve_untruthy (rls : List (String × List RateEntry)) (m : Option String)
    (hm : truthy m = false) :
    resolveLimits rls m = (lookupRL rls "default").getD [⟨999999, 60⟩] := by
  unfold resolveLimits
  have hfind : rls.find? (fun _ => false) = none := by
    apply List.find?_eq_none.mpr
    intro x _
    simp
  simp [hm, hfind]

theorem resolve_key_consistent (rls : List (String × List RateEntry))
    (hdef : (lookupRL rls "default").isSome = true)
    (m1 m2 : Option String) (hk : modelKey m1 = modelKey m2) :
    resolveLimits rls m1 = resolveLimits rls m2 := by
  obtain ⟨d, hd⟩ := Option.isSome_iff_exists.mp hdef
  cases ht1 : truthy m1 <;> cases ht2 : truthy m2
  · rw [resolve_untruthy rls m1 ht1, resolve_untruthy rls m2 ht2]
  · -- m1 untruthy and m2 truthy: key equality forces m2's name to be "default"
    have h1 : modelKey m1 = "default" := by simp [modelKey, ht1]
    have h2 : modelKey m2 = m2.getD "" := by simp [modelKey, ht2]
    have hdefname : m2.getD "" = "default" := by rw [← h2, ← hk, h1]
    rw [resolve_untruthy rls m1 ht1]
    unfold resolveLimits
    simp [ht2, hdefname, hd]
  · have h1 : modelKey m1 = m1.getD "" := by simp [modelKey, ht1]
    have h2 : modelKey m2 = "default" := by simp [modelKey, ht2]
    have hdefname : m1.getD "" = "default" := by rw [← h1, hk, h2]
    rw [resolve_untruthy rls m2 ht2]
    unfold resolveLimits
    simp [ht1, hdefname, hd]
  · have h1 : modelKey m1 = m1.getD "" := by simp [modelKey, ht1]
    have h2 : modelKey m2 = m2.getD "" := by simp [modelKey, ht2]
    have heq : m1.getD "" = m2.getD "" := by rw [← h1, hk, h2]
    unfold resolveLimits
    simp only [ht1, ht2, heq, if_true]

theorem window_step (log : List Int) (now t maxP : Int) (e : RateEntry)
    (hIH : (log.filter (fun r => inWindow t e.period r)).length ≤ e.count)
    (hstrict : (log.filter (fun r => now - e.period < r)).length < e.count) :
    ((log.filter (fun r => now - maxP < r) ++ [now]).filter
      (fun r => inWindow t e.period r)).length ≤ e.count := by
  rw [List.filter_append, List.length_append]
  by_cases hw : inWindow t e.period now = true
  · have hcomp := hw
    rw [inWindow, Bool.and_eq_true, decide_eq_true_eq, decide_eq_true_eq] at hcomp
    obtain ⟨hlo, hhi⟩ := hcomp
    have h1 : (([now] : List Int).filter (fun r => inWindow t e.period r)).length = 1 := by
      simp [hw]
    have h2 : ((log.filter (fun r => now - maxP < r)).filter
        (fun r => inWindow t e.period r)).length ≤
        (log.filter (fun r => now - e.period < r)).length := by
      rw [List.filter_filter]
      apply length_filter_mono
      intro a ha
      rw [Bool.and_eq_true, decide_eq_true_eq] at ha
      obtain ⟨hwa, _⟩ := ha
      rw [inWindow, Bool.and_eq_true, decide_eq_true_eq, decide_eq_true_eq] at hwa
      rw [decide_eq_true_eq]
      omega
    omega
  · have h1 : (([now] : List Int).filter (fun r => inWindow t e.period r)).length = 0 := by
      rw [Bool.not_eq_true] at hw
      simp [hw]
    have h2 : ((log.filter (fun r => now - maxP < r)).filter
        (fun r => inWindow t e.period r)).length ≤
        (log.filter (fun r => inWindow t e.period r)).length := by
      rw [List.filter_filter]
      apply length_filter_mono
      intro a ha
      rw [Bool.and_eq_true] at ha
      exact ha.1
    omega

theorem windowBound_requests_eq (rls : List (String × List RateEntry))
    (s s' : ThreadSafeCircularList) (h : s'.requests = s.requests)
    (hwb : WindowBound rls s) : WindowBound rls s' := by
  intro item m e he t
  rw [h]
  exact hwb item m e he t

theorem windowBound_irlUpdate (rls : List (String × List RateEntry))
    (hdef : (lookupRL rls "default").isSome = true)
    (s : ThreadSafeCircularList) (now : Int) (item : String) (m : Option String)
    (hs : s.rate_limits = rls) (hwb : WindowBound rls s)
    (hchk : checkLimits (s.requests item (modelKey m)) now (resolveLimits rls m) = false) :
    WindowBound rls (irlUpdate s now item m) := by
  subst hs
  intro item' m' e he t
  have hreq : (irlUpdate s now item m).requests item' (modelKey m') =
      (if item' = item ∧ modelKey m' = modelKey m then
        (s.requests item (modelKey m)).filter (fun r =>
          now - listMax ((resolveLimits s.rate_limits m).map (fun x => x.period)) < r) ++ [now]
      else s.requests item' (modelKey m')) := by
    by_cases hi : item' = item
    · subst hi
      by_cases hk2 : modelKey m' = modelKey m
      · simp [irlUpdate, hk2]
      · simp [irlUpdate, Function.update_noteq hk2, hk2]
    · simp [irlUpdate, Function.update_noteq hi, hi]
  rw [hreq]
  by_cases hcase : item' = item ∧ modelKey m' = modelKey m
  · rw [if_pos hcase]
    obtain ⟨hi, hk2⟩ := hcase
    subst hi
    have hres := resolve_key_consistent s.rate_limits hdef m' m hk2
    have he2 : e ∈ resolveLimits s.rate_limits m := by rw [← hres]; exact he
    have hIH := hwb item' m' e he t
    rw [hk2] at hIH
    exact window_step (s.requests item' (modelKey m)) now t _ e hIH
      (checkLimits_false hchk e he2)
  · rw [if_neg hcase]
    exact hwb item' m' e he t

theorem nextAux_inv (rls : List (String × List RateEntry))
    (hdef : (lookupRL rls "default").isSome = true) (now : Int) (m : Option String) :
    ∀ (fuel : Nat) (s : ThreadSafeCircularList), s.rate_limits = rls →
      WindowBound rls s → ∀ item s', nextAux now m s fuel = .ok (item, s') →
      s'.rate_limits = rls ∧ WindowBound rls s' := by
  intro fuel
  induction fuel with
  | zero =>
    intro s hs hwb item s' h
    exact absurd h (by simp [nextAux])
  | succ fuel ih =>
    intro s hs hwb item s' h
    rw [nextAux] at h
    cases hget : s.items.get? s.index with
    | none =>
      rw [hget] at h
      exact absurd h (by simp)
    | some item0 =>
      rw [hget] at h
      dsimp only at h
      rcases hirl : is_rate_limited { s with index := (s.index + 1) % s.items.length }
          now item0 m with ⟨b, s2⟩
      rw [hirl] at h
      cases b with
      | true =>
        have hb : (is_rate_limited { s with index := (s.index + 1) % s.items.length }
            now item0 m).1 = true := by rw [hirl]
        have hframe := irl_true_frame _ now item0 m hb
        have hs2 : (is_rate_limited { s with index := (s.index + 1) % s.items.length }
            now item0 m).2 = s2 := by rw [hirl]
        rw [hs2] at hframe
        have hs2rl : s2.rate_limits = rls := by rw [hframe]; exact hs
        have hs2wb : WindowBound rls s2 := by
          apply windowBound_requests_eq rls s s2
          · rw [hframe]
          · exact hwb
        exact ih s2 hs2rl hs2wb item s' h
      | false =>
        have hb : (is_rate_limited { s with index := (s.index + 1) % s.items.length }
            now item0 m).1 = false := by rw [hirl]
        obtain ⟨hcool, hchk, hupd⟩ := irl_false_result _ now item0 m hb
        have hs2 : (is_rate_limited { s with index := (s.index + 1) % s.items.length }
            now item0 m).2 = s2 := by rw [hirl]
        rw [hs2] at hupd
        injection h with hpair
        injection hpair with hitem hstate
        subst hitem
        subst hstate
        rw [hupd]
        refine ⟨hs, ?_⟩
        have hchk2 : checkLimits
            (({ s with index := (s.index + 1) % s.items.length } :
              ThreadSafeCircularList).requests item0 (modelKey m)) now
            (resolveLimits rls m) = false := by
          rw [← hs]
          exact hchk
        exact windowBound_irlUpdate rls hdef _ now item0 m hs hwb hchk2

theorem next_inv (rls : List (String × List RateEntry))
    (hdef : (lookupRL rls "default").isSome = true)
    (s : ThreadSafeCircularList) (now : Int) (m : Option String)
    (item : String) (s' : ThreadSafeCircularList)
    (hs : s.rate_limits = rls) (hwb : WindowBound rls s)
    (h : tscl_next s now m = .ok (item, s')) :
    s'.rate_limits = rls ∧ WindowBound rls s' := by
  simp only [tscl_next] at h
  by_cases hsch : (s.schedule_algorithm == "fixed_priority") = true
  · rw [if_pos hsch] at h
    by_cases hemp : (({ s with index := 0 } : ThreadSafeCircularList).items.isEmpty) = true
    · rw [if_pos hemp] at h
      exact absurd h (by simp)
    · rw [if_neg hemp] at h
      exact nextAux_inv rls hdef now m _ { s with index := 0 } hs hwb item s' h
  · rw [if_neg hsch] at h
    by_cases hemp : s.items.isEmpty = true
    · rw [if_pos hemp] at h
      exact absurd h (by simp)
    · rw [if_neg hemp] at h
      exact nextAux_inv rls hdef now m _ _ hs hwb item s' h

theorem execCalls_inv (rls : List (String × List RateEntry))
    (hdef : (lookupRL rls "default").isSome = true) :
    ∀ (calls : List (Int × Option String)) (s : ThreadSafeCircularList),
      s.rate_limits = rls → WindowBound rls s →
      (execCalls s calls).rate_limits = rls ∧ WindowBound rls (execCalls s calls) := by
  intro calls
  induction calls with
  | nil =>
    intro s hs hwb
    exact ⟨hs, hwb⟩
  | cons c rest ih =>
    intro s hs hwb
    obtain ⟨now, m⟩ := c
    rw [execCalls]
    cases hn : tscl_next s now m with
    | ok pr =>
      obtain ⟨it, s'⟩ := pr
      obtain ⟨hs', hwb'⟩ := next_inv rls hdef s now m it s' hs hwb hn
      exact ih s' hs' hwb'
    | error er =>
      exact ih s hs hwb

theorem nextAux_ok_check (now : Int) (m : Option String) :
    ∀ (fuel : Nat) (s : ThreadSafeCircularList) (item : String)
      (s' : ThreadSafeCircularList), nextAux now m s fuel = .ok (item, s') →
      s.cooling_until item ≤ now ∧
      ∀ e ∈ resolveLimits s.rate_limits m,
        ((s.requests item (modelKey m)).filter
          (fun r => now - e.period < r)).length < e.count := by
  intro fuel
  induction fuel with
  | zero =>
    intro s item s' h
    exact absurd h (by simp [nextAux])
  | succ fuel ih =>
    intro s item s' h
    rw [nextAux] at h
    cases hget : s.items.get? s.index with
    | none =>
      rw [hget] at h
      exact absurd h (by simp)
    | some item0 =>
      rw [hget] at h
      dsimp only at h
      rcases hirl : is_rate_limited { s with index := (s.index + 1) % s.items.length }
          now item0 m with ⟨b, s2⟩
      rw [hirl] at h
      cases b with
      | true =>
        have hb : (is_rate_limited { s with index := (s.index + 1) % s.items.length }
            now item0 m).1 = true := by rw [hirl]
        have hframe := irl_true_frame _ now item0 m hb
        have hs2 : (is_rate_limited { s with index := (s.index + 1) % s.items.length }
            now item0 m).2 = s2 := by rw [hirl]
        rw [hs2] at hframe
        have hres := ih s2 item s' h
        rw [hframe] at hres
        exact hres
      | false =>
        have hb : (is_rate_limited { s with index := (s.index + 1) % s.items.length }
            now item0 m).1 = false := by rw [hirl]
        obtain ⟨hcool, hchk, _⟩ := irl_false_result _ now item0 m hb
        injection h with hpair
        injection hpair with hitem hstate
        subst hitem
        constructor
        · exact Int.not_lt.mp hcool
        · intro e he
          exact checkLimits_false hchk e he

theorem next_ok_check (s : ThreadSafeCircularList) (now : Int) (m : Option String)
    (item : String) (s' : ThreadSafeCircularList)
    (h : tscl_next s now m = .ok (item, s')) :
    s.cooling_until item ≤ now ∧
    ∀ e ∈ resolveLimits s.rate_limits m,
      ((s.requests item (modelKey m)).filter
        (fun r => now - e.period < r)).length < e.count := by
  simp only [tscl_next] at h
  by_cases hsch : (s.schedule_algorithm == "fixed_priority") = true
  · rw [if_pos hsch] at h
    by_cases hemp : (({ s with index := 0 } : ThreadSafeCircularList).items.isEmpty) = true
    · rw [if_pos hemp] at h
      exact absurd h (by simp)
    · rw [if_neg hemp] at h
      exact nextAux_ok_check now m _ { s with index := 0 } item s' h
  · rw [if_neg hsch] at h
    by_cases hemp : s.items.isEmpty = true
    · rw [if_pos hemp] at h
      exact absurd h (by simp)
    · rw [if_neg hemp] at h
      exact nextAux_ok_check now m _ _ item s' h

/-- C1: for every credential pool whose rate-limit table has the
mandatory `"default"` entry (and only non-empty parsed limit lists, as
`parse_rate_limit` guarantees), starting from empty request logs, after
any sequence of `next(model)` calls no sliding `(count, period)` window
applicable to a `(credential, model_key)` pair ever holds more than
`count` recorded timestamps; and `next` only returns a credential whose
`cooling_until` is not in the future and whose applicable windows are
all strictly below their counts at selection time. -/
theorem c1_rate_limit_window_invariant (s₀ : ThreadSafeCircularList)
    (hlogs : ∀ item k, s₀.requests item k = [])
    (hdef : (lookupRL s₀.rate_limits "default").isSome = true)
    (_hwf : ∀ kv ∈ s₀.rate_limits, kv.2 ≠ []) :
    (∀ (calls : List (Int × Option String)) (item : String) (m : Option String)
      (e : RateEntry), e ∈ resolveLimits s₀.rate_limits m → ∀ t : Int,
      (((execCalls s₀ calls).requests item (modelKey m)).filter
        (fun r => inWindow t e.period r)).length ≤ e.count) ∧
    (∀ (s : ThreadSafeCircularList) (now : Int) (m : Option String)
      (item : String) (s' : ThreadSafeCircularList),
      tscl_next s now m = .ok (item, s') →
      s.cooling_until item ≤ now ∧
      ∀ e ∈ resolveLimits s.rate_limits m,
        ((s.requests item (modelKey m)).filter
          (fun r => now - e.period < r)).length < e.count) := by
  constructor
  · intro calls item m e he t
    have hwb0 : WindowBound s₀.rate_limits s₀ := by
      intro item' m' e' he' t'
      rw [hlogs]
      simp
    exact (execCalls_inv s₀.rate_limits hdef calls s₀ rfl hwb0).2 item m e he t
  · intro s now m item s' h
    exact next_ok_check s now m item s' h

/-- C1 witness: a concrete one-credential pool with limit `2/60s`. -/
theorem c1_rate_limit_window_invariant_witness :
    (∀ item k, c1pool.requests item k = ([] : List Int)) ∧
    (lookupRL c1pool.rate_limits "default").isSome = true ∧
    (∀ kv ∈ c1pool.rate_limits, kv.2 ≠ []) ∧
    (∀ (calls : List (Int × Option String)) (item : String) (m : Option String)
      (e : RateEntry), e ∈ resolveLimits c1pool.rate_limits m → ∀ t : Int,
      (((execCalls c1pool calls).requests item (modelKey m)).filter
        (fun r => inWindow t e.period r)).length ≤ e.count) :=
  ⟨fun _ _ => rfl, by decide, by decide,
   (c1_rate_limit_window_invariant c1pool (fun _ _ => rfl) (by decide) (by decide)).1⟩

/-- C4: when the first inspected event decodes to an object whose
`error` field is present and differs from the empty-error sentinel, the
check raises an HTTP error whose status code is the object's
`status_code` field when present and 500 otherwise, with the details
string truncated to at most 300 characters; when the `error` field
equals the empty sentinel, or is absent, no HTTP error is raised. -/
theorem c4_first_chunk_error_check (pyStr : JValue → String)
    (content : List (String × JValue)) :
    (∀ errv, jLookup content "error" = some errv → isEmptyErrorVal errv = false →
      ∃ exc, checkDictError pyStr content = some exc ∧
        exc.status_code = (jLookup content "status_code").getD (.num 500) ∧
        exc.detail.length ≤ 300) ∧
    (∀ errv, jLookup content "error" = some errv → isEmptyErrorVal errv = true →
      checkDictError pyStr content = none) ∧
    (jLookup content "error" = none → checkDictError pyStr content = none) := by
  refine ⟨?_, ?_, ?_⟩
  · intro errv herr hne
    refine ⟨⟨(jLookup content "status_code").getD (.num 500),
      ⟨(match jLookup content "details" with
        | some d => pyStr d
        | none => pyStr (.obj content)).data.take 300⟩⟩, ?_, rfl, ?_⟩
    · unfold checkDictError
      rw [herr]
      dsimp only
      rw [if_neg (by simp [hne])]
    · show (List.take 300 _).length ≤ 300
      exact le_trans (List.length_take_le 300 _) (le_refl 300)
  · intro errv herr hemp
    unfold checkDictError
    rw [herr]
    dsimp only
    rw [if_pos hemp]
  · intro herr
    unfold checkDictError
    rw [herr]

/-- C4 witness: a non-empty `error` with `status_code` 418 raises; the
empty sentinel does not; an object without `error` does not. -/
theorem c4_first_chunk_error_check_witness :
    (jLookup [("error", JValue.str "boom"), ("status_code", JValue.num 418)] "error" =
      some (JValue.str "boom")) ∧
    isEmptyErrorVal (JValue.str "boom") = false ∧
    (∃ exc, checkDictError (fun _ => "details text")
        [("error", JValue.str "boom"), ("status_code", JValue.num 418)] = some exc ∧
      exc.status_code =
        (jLookup [("error", JValue.str "boom"), ("status_code", JValue.num 418)]
          "status_code").getD (.num 500) ∧
      exc.detail.length ≤ 300) ∧
    (jLookup [("error", JValue.obj [("message", JValue.str ""), ("type", JValue.str ""),
        ("param", JValue.str ""), ("code", JValue.null)])] "error" =
      some (JValue.obj [("message", JValue.str ""), ("type", JValue.str ""),
        ("param", JValue.str ""), ("code", JValue.null)])) ∧
    isEmptyErrorVal (JValue.obj [("message", JValue.str ""), ("type", JValue.str ""),
      ("param", JValue.str ""), ("code", JValue.null)]) = true ∧
    checkDictError (fun _ => "details text")
      [("error", JValue.obj [("message", JValue.str ""), ("type", JValue.str ""),
        ("param", JValue.str ""), ("code", JValue.null)])] = none ∧
    checkDictError (fun _ => "details text") [("ok", JValue.null)] = none :=
  ⟨rfl, rfl,
   (c4_first_chunk_error_check (fun _ => "details text")
     [("error", JValue.str "boom"), ("status_code", JValue.num 418)]).1
     (JValue.str "boom") rfl rfl,
   rfl, rfl,
   (c4_first_chunk_error_check (fun _ => "details text")
     [("error", JValue.obj [("message", JValue.str ""), ("type", JValue.str ""),
       ("param", JValue.str ""), ("code", JValue.null)])]).2.1
     (JValue.obj [("message", JValue.str ""), ("type", JValue.str ""),
       ("param", JValue.str ""), ("code", JValue.null)]) rfl rfl,
   (c4_first_chunk_error_check (fun _ => "details text") [("ok", JValue.null)]).2.2 rfl⟩

theorem serializeObj_shape (kvs : List (String × JValue)) :
    ∃ mid : List Char, serialize (.obj kvs) = ⟨'\x7b' :: mid ++ ['\x7d']⟩ := by
  refine ⟨(serializeKVs kvs).data, ?_⟩
  have h : serialize (.obj kvs) = "\x7b" ++ serializeKVs kvs ++ "\x7d" := by
    rw [serialize]
  rw [h]
  apply String.ext
  rw [strDataAppend, strDataAppend]
  simp

theorem dataBrace_ne_done (mid : List Char) :
    ("data: " ++ (⟨'\x7b' :: mid⟩ : String) ++ end_of_line) ≠ doneStr := by
  intro h
  have h2 := congrArg String.data h
  rw [strDataAppend, strDataAppend] at h2
  have hl : "data: ".data = ['d', 'a', 't', 'a', ':', ' '] := rfl
  have hmk : (⟨'\x7b' :: mid⟩ : String).data = '\x7b' :: mid := rfl
  have hr : doneStr.data =
      ['d', 'a', 't', 'a', ':', ' ', '[', 'D', 'O', 'N', 'E', ']', '\n', '\n'] := rfl
  rw [hl, hmk, hr] at h2
  simp at h2

theorem dataJson_ne_done (kvs : List (String × JValue)) :
    ("data: " ++ serialize (.obj kvs) ++ end_of_line) ≠ doneStr := by
  obtain ⟨mid, hmid⟩ := serializeObj_shape kvs
  rw [hmid]
  have hshape : (⟨'\x7b' :: mid ++ ['\x7d']⟩ : String) = ⟨'\x7b' :: (mid ++ ['\x7d'])⟩ := rfl
  rw [hshape]
  exact dataBrace_ne_done (mid ++ ['\x7d'])

theorem gen_sse_ne_done (rng : RNG) (t : Int) (model : String)
    (c ti fn fc r : Option String) (tt pt ct : Int) :
    generate_sse_response rng t model c ti fn fc r tt pt ct ≠ doneStr := by
  unfold generate_sse_response sse_chunk_obj
  exact dataJson_ne_done _

theorem pyStrip_braced (mid : List Char) :
    pyStrip ⟨'\x7b' :: mid ++ ['\x7d']⟩ = ⟨'\x7b' :: mid ++ ['\x7d']⟩ := by
  unfold pyStrip
  have hmk : ((⟨'\x7b' :: mid ++ ['\x7d']⟩ : String)).data = '\x7b' :: (mid ++ ['\x7d']) := rfl
  rw [hmk]
  have h1 : List.dropWhile pySpace ('\x7b' :: (mid ++ ['\x7d'])) =
      '\x7b' :: (mid ++ ['\x7d']) := by
    rw [List.dropWhile_cons]
    simp [pySpace]
  rw [h1]
  have h2 : ('\x7b' :: (mid ++ ['\x7d'])).reverse = '\x7d' :: (mid.reverse ++ ['\x7b']) := by
    simp
  rw [h2]
  have h3 : List.dropWhile pySpace ('\x7d' :: (mid.reverse ++ ['\x7b'])) =
      '\x7d' :: (mid.reverse ++ ['\x7b']) := by
    rw [List.dropWhile_cons]
    simp [pySpace]
  rw [h3, ← h2, List.reverse_reverse]
  rfl

theorem rawEvent_ne_done (kvs : List (String × JValue)) :
    ("data: " ++ pyStrip (serialize (.obj kvs)) ++ end_of_line) ≠ doneStr := by
  obtain ⟨mid, hmid⟩ := serializeObj_shape kvs
  rw [hmid, pyStrip_braced]
  have hshape : (⟨'\x7b' :: mid ++ ['\x7d']⟩ : String) = ⟨'\x7b' :: (mid ++ ['\x7d'])⟩ := rfl
  rw [hshape]
  exact dataBrace_ne_done (mid ++ ['\x7d'])

theorem countDone_append (a b : List Ev) :
    countDone (a ++ b) = countDone a + countDone b := by
  simp [countDone, List.filter_append]

theorem countDone_done : countDone [Ev.str doneStr] = 1 := by
  simp [countDone]

theorem countDone_zero_of (evs : List Ev) (h : ∀ e ∈ evs, e ≠ Ev.str doneStr) :
    countDone evs = 0 := by
  unfold countDone
  rw [List.length_eq_zero, List.filter_eq_nil_iff]
  intro e he
  cases e with
  | errObj v => simp
  | str s' =>
    have hne : s' ≠ doneStr := fun hh => h _ he (by rw [hh])
    simp [hne]

theorem gemTextEvents_noDone (parse : JParse) (rng : RNG) (t : Int) (model : String)
    (line : String) (evs : List Ev)
    (h : gemTextEvents parse rng t model line = .ok evs) :
    ∀ e ∈ evs, e ≠ Ev.str doneStr := by
  unfold gemTextEvents at h
  repeat' split at h
  all_goals first
    | (injection h
       done)
    | (injection h with h'
       subst h'
       intro e he
       exact absurd he (List.not_mem_nil e))
    | (injection h with h'
       subst h'
       intro e he
       simp only [List.mem_singleton] at he
       subst he
       intro h2
       exact gen_sse_ne_done _ _ _ _ _ _ _ _ _ _ _ (Ev.str.inj h2))

theorem gemFinish_noDone (parse : JParse) (rng : RNG) (t : Int) (model : String)
    (st : GemSt) (evs : List Ev)
    (h : gemFinish parse rng t model st = .ok evs) :
    ∀ e ∈ evs, e ≠ Ev.str doneStr := by
  unfold gemFinish at h
  repeat' split at h
  all_goals first
    | (injection h
       done)
    | (injection h with h'
       subst h'
       intro e he
       exact absurd he (List.not_mem_nil e))
    | (injection h with h'
       subst h'
       intro e he
       simp only [List.mem_cons, List.mem_singleton, List.not_mem_nil, or_false] at he
       rcases he with rfl | rfl <;>
         exact fun h2 => gen_sse_ne_done _ _ _ _ _ _ _ _ _ _ _ (Ev.str.inj h2))

theorem gemLines_noDone (parse : JParse) (rng : RNG) (t : Int) (model : String) :
    ∀ (lines : List String) (st : GemSt) (evs : List Ev) (st' : GemSt),
      gemLines parse rng t model st lines = .ok (evs, st') →
      ∀ e ∈ evs, e ≠ Ev.str doneStr := by
  intro lines
  induction lines with
  | nil =>
    intro st evs st' h e he
    injection h with h'
    injection h' with h1 h2
    subst h1
    simp at he
  | cons line rest ih =>
    intro st evs st' h e he
    rw [gemLines] at h
    split at h
    · injection h with h'
      injection h' with h1 h2
      subst h1
      simp at he
    · cases hte : gemTextEvents parse rng t model line with
      | error u =>
        rw [hte] at h
        exact absurd h (by simp)
      | ok evs1 =>
        rw [hte] at h
        dsimp only at h
        cases hrest : gemLines parse rng t model (gemFcStep st line) rest with
        | error u =>
          rw [hrest] at h
          exact absurd h (by simp)
        | ok pr =>
          obtain ⟨evs2, st2⟩ := pr
          rw [hrest] at h
          dsimp only at h
          injection h with h'
          injection h' with h1 h2
          subst h1
          rcases List.mem_append.mp he with h3 | h3
          · exact gemTextEvents_noDone parse rng t model line evs1 hte e h3
          · exact ih (gemFcStep st line) evs2 st2 hrest e h3

theorem fetchGemini_done (parse : JParse) (rng : RNG) (t : Int) (model : String)
    (chunks : List String) (evs : List Ev)
    (h : fetchGeminiStream parse rng t model none chunks = .ok evs) :
    countDone evs = 1 ∧ evs.getLast? = some (Ev.str doneStr) := by
  unfold fetchGeminiStream at h
  cases h1 : gemLines parse rng t model gemInitSt (linesOf chunks) with
  | error u =>
    rw [h1] at h
    exact absurd h (by simp)
  | ok pr =>
    obtain ⟨evs1, st⟩ := pr
    rw [h1] at h
    dsimp only at h
    cases h2 : gemFinish parse rng t model st with
    | error u =>
      rw [h2] at h
      exact absurd h (by simp)
    | ok evs2 =>
      rw [h2] at h
      dsimp only at h
      injection h with h'
      subst h'
      constructor
      · rw [countDone_append, countDone_append,
          countDone_zero_of evs1 (gemLines_noDone parse rng t model _ _ _ _ h1),
          countDone_zero_of evs2 (gemFinish_noDone parse rng t model _ _ h2),
          countDone_done]
      · exact List.getLast?_concat _

theorem noDone_nil : ∀ e ∈ ([] : List Ev), e ≠ Ev.str doneStr := by
  intro e he
  exact absurd he (List.not_mem_nil e)

theorem noDone_gen (rng : RNG) (t : Int) (model : String)
    (c ti fn fc r : Option String) (tt pt ct : Int) :
    ∀ e ∈ [Ev.str (generate_sse_response rng t model c ti fn fc r tt pt ct)],
      e ≠ Ev.str doneStr := by
  intro e he h2
  simp only [List.mem_singleton] at he
  subst he
  exact gen_sse_ne_done _ _ _ _ _ _ _ _ _ _ _ (Ev.str.inj h2)

theorem noDone_append (a b : List Ev) (ha : ∀ e ∈ a, e ≠ Ev.str doneStr)
    (hb : ∀ e ∈ b, e ≠ Ev.str doneStr) : ∀ e ∈ a ++ b, e ≠ Ev.str doneStr := by
  intro e he
  rcases List.mem_append.mp he with h | h
  · exact ha e h
  · exact hb e h

theorem noDone_cons (x : Ev) (b : List Ev) (hx : x ≠ Ev.str doneStr)
    (hb : ∀ e ∈ b, e ≠ Ev.str doneStr) : ∀ e ∈ x :: b, e ≠ Ev.str doneStr := by
  intro e he
  rcases List.mem_cons.mp he with rfl | h
  · exact hx
  · exact hb e h

theorem claudeRolePart_noDone (rng : RNG) (t : Int) (model : String)
    (msg : List (String × JValue)) (evs : List Ev)
    (h : claudeRolePart rng t model msg = .ok evs) :
    ∀ e ∈ evs, e ≠ Ev.str doneStr := by
  unfold claudeRolePart at h
  repeat' split at h
  all_goals first
    | (injection h
       done)
    | (injection h with h'
       subst h'
       exact noDone_nil)
    | (injection h with h'
       subst h'
       exact noDone_gen _ _ _ _ _ _ _ _ _ _ _)

theorem claudeUsagePart_noDone (rng : RNG) (t : Int) (model : String) (inTok : Int)
    (resp : List (String × JValue)) (evs : List Ev)
    (h : claudeUsagePart rng t model inTok resp = .ok evs) :
    ∀ e ∈ evs, e ≠ Ev.str doneStr := by
  unfold claudeUsagePart at h
  repeat' split at h
  all_goals first
    | (injection h
       done)
    | (injection h with h'
       subst h'
       exact noDone_nil)
    | (injection h with h'
       subst h'
       exact noDone_gen _ _ _ _ _ _ _ _ _ _ _)

theorem claudeToolPart_noDone (rng : RNG) (t : Int) (model : String)
    (resp : List (String × JValue)) (evs : List Ev)
    (h : claudeToolPart rng t model resp = .ok evs) :
    ∀ e ∈ evs, e ≠ Ev.str doneStr := by
  unfold claudeToolPart at h
  repeat' split at h
  all_goals first
    | (injection h
       done)
    | (injection h with h'
       subst h'
       exact noDone_nil)
    | (injection h with h'
       subst h'
       exact noDone_gen _ _ _ _ _ _ _ _ _ _ _)

theorem claudeDeltaTextPart_noDone (rng : RNG) (t : Int) (model : String)
    (d : List (String × JValue)) (evs : List Ev)
    (h : claudeDeltaTextPart rng t model d = .ok evs) :
    ∀ e ∈ evs, e ≠ Ev.str doneStr := by
  unfold claudeDeltaTextPart at h
  repeat' split at h
  all_goals first
    | (injection h
       done)
    | (injection h with h'
       subst h'
       exact noDone_nil)
    | (injection h with h'
       subst h'
       exact noDone_gen _ _ _ _ _ _ _ _ _ _ _)

theorem claudeDeltaJsonPart_noDone (rng : RNG) (t : Int) (model : String)
    (d : List (String × JValue)) (evs : List Ev)
    (h : claudeDeltaJsonPart rng t model d = .ok evs) :
    ∀ e ∈ evs, e ≠ Ev.str doneStr := by
  unfold claudeDeltaJsonPart at h
  repeat' split at h
  all_goals first
    | (injection h
       done)
    | (injection h with h'
       subst h'
       exact noDone_nil)
    | (injection h with h'
       subst h'
       exact noDone_gen _ _ _ _ _ _ _ _ _ _ _)

theorem claudeDeltaPart_noDone (rng : RNG) (t : Int) (model : String)
    (resp : List (String × JValue)) (evs : List Ev)
    (h : claudeDeltaPart rng t model resp = .ok evs) :
    ∀ e ∈ evs, e ≠ Ev.str doneStr := by
  unfold claudeDeltaPart at h
  cases hd : jLookup resp "delta" with
  | none =>
    rw [hd] at h
    injection h with h'
    subst h'
    exact noDone_nil
  | some dv =>
    rw [hd] at h
    dsimp only at h
    by_cases ht : jTruthy dv = true
    · rw [if_pos ht] at h
      cases dv with
      | obj d =>
        dsimp only at h
        cases h1 : claudeDeltaTextPart rng t model d with
        | error u =>
          rw [h1] at h
          injection h
        | ok evs1 =>
          rw [h1] at h
          dsimp only at h
          cases h2 : claudeDeltaJsonPart rng t model d with
          | error u =>
            rw [h2] at h
            injection h
          | ok evs2 =>
            rw [h2] at h
            dsimp only at h
            injection h with h'
            subst h'
            exact noDone_append _ _ (claudeDeltaTextPart_noDone rng t model d evs1 h1)
              (claudeDeltaJsonPart_noDone rng t model d evs2 h2)
      | null => injection h
      | bool b => injection h
      | num n => injection h
      | str s2 => injection h
      | arr xs => injection h
    · rw [if_neg ht] at h
      injection h with h'
      subst h'
      exact noDone_nil

theorem claudeMsgPart_noDone (rng : RNG) (t : Int) (model : String) (inTok : Int)
    (resp : List (String × JValue)) (evs : List Ev) (tok : Int)
    (h : claudeMsgPart rng t model inTok resp = .ok (evs, tok)) :
    ∀ e ∈ evs, e ≠ Ev.str doneStr := by
  unfold claudeMsgPart at h
  cases hm : jLookup resp "message" with
  | none =>
    rw [hm] at h
    injection h with h'
    injection h' with h1 h2
    subst h1
    exact noDone_nil
  | some mv =>
    rw [hm] at h
    dsimp only at h
    by_cases ht : jTruthy mv = true
    · rw [if_pos ht] at h
      cases mv with
      | obj msg =>
        dsimp only at h
        cases h1 : claudeRolePart rng t model msg with
        | error u =>
          rw [h1] at h
          injection h
        | ok evs1 =>
          rw [h1] at h
          dsimp only at h
          cases h2 : claudeTokPart inTok msg with
          | error u =>
            rw [h2] at h
            injection h
          | ok tok1 =>
            rw [h2] at h
            dsimp only at h
            injection h with h'
            injection h' with h3 h4
            subst h3
            exact claudeRolePart_noDone rng t model msg evs1 h1
      | null => injection h
      | bool b => injection h
      | num n => injection h
      | str s2 => injection h
      | arr xs => injection h
    · rw [if_neg ht] at h
      injection h with h'
      injection h' with h1 h2
      subst h1
      exact noDone_nil

theorem claudeRespEvents_noDone (rng : RNG) (t : Int) (model : String) (inTok : Int)
    (resp : List (String × JValue)) (evs : List Ev) (tok : Int)
    (h : claudeRespEvents rng t model inTok resp = .ok (evs, tok)) :
    ∀ e ∈ evs, e ≠ Ev.str doneStr := by
  unfold claudeRespEvents at h
  cases h1 : claudeMsgPart rng t model inTok resp with
  | error u =>
    rw [h1] at h
    injection h
  | ok pr =>
    obtain ⟨evs1, tok1⟩ := pr
    rw [h1] at h
    dsimp only at h
    cases h2 : claudeUsagePart rng t model tok1 resp with
    | error u =>
      rw [h2] at h
      injection h
    | ok evs2 =>
      rw [h2] at h
      dsimp only at h
      cases h3 : claudeToolPart rng t model resp with
      | error u =>
        rw [h3] at h
        injection h
      | ok evs3 =>
        rw [h3] at h
        dsimp only at h
        cases h4 : claudeDeltaPart rng t model resp with
        | error u =>
          rw [h4] at h
          injection h
        | ok evs4 =>
          rw [h4] at h
          dsimp only at h
          injection h with h'
          injection h' with h5 h6
          subst h5
          exact noDone_append _ _
            (noDone_append _ _
              (noDone_append _ _ (claudeMsgPart_noDone rng t model inTok resp evs1 tok1 h1)
                (claudeUsagePart_noDone rng t model tok1 resp evs2 h2))
              (claudeToolPart_noDone rng t model resp evs3 h3))
            (claudeDeltaPart_noDone rng t model resp evs4 h4)

theorem claudeLineEvents_noDone (parse : JParse) (rng : RNG) (t : Int) (model : String)
    (inTok : Int) (line : String) (evs : List Ev) (tok : Int)
    (h : claudeLineEvents parse rng t model inTok line = .ok (evs, tok)) :
    ∀ e ∈ evs, e ≠ Ev.str doneStr := by
  unfold claudeLineEvents at h
  split at h
  · cases hp : parse (pyLstrip dataStripChars line) with
    | none =>
      rw [hp] at h
      injection h
    | some resp =>
      rw [hp] at h
      dsimp only at h
      exact claudeRespEvents_noDone rng t model inTok resp evs tok h
  · injection h with h'
    injection h' with h1 h2
    subst h1
    exact noDone_nil

theorem claudeLines_noDone (parse : JParse) (rng : RNG) (t : Int) (model : String) :
    ∀ (lines : List String) (inTok : Int) (evs : List Ev),
      claudeLines parse rng t model inTok lines = .ok evs →
      ∀ e ∈ evs, e ≠ Ev.str doneStr := by
  intro lines
  induction lines with
  | nil =>
    intro inTok evs h
    injection h with h'
    subst h'
    exact noDone_nil
  | cons line rest ih =>
    intro inTok evs h
    rw [claudeLines] at h
    cases h1 : claudeLineEvents parse rng t model inTok line with
    | error u =>
      rw [h1] at h
      injection h
    | ok pr =>
      obtain ⟨evs1, tok1⟩ := pr
      rw [h1] at h
      dsimp only at h
      cases h2 : claudeLines parse rng t model tok1 rest with
      | error u =>
        rw [h2] at h
        injection h
      | ok evs2 =>
        rw [h2] at h
        dsimp only at h
        injection h with h'
        subst h'
        exact noDone_append _ _
          (claudeLineEvents_noDone parse rng t model inTok line evs1 tok1 h1)
          (ih tok1 evs2 h2)

theorem fetchClaude_done (parse : JParse) (rng : RNG) (t : Int) (model : String)
    (chunks : List String) (evs : List Ev)
    (h : fetchClaudeStream parse rng t model none chunks = .ok evs) :
    countDone evs = 1 ∧ evs.getLast? = some (Ev.str doneStr) := by
  unfold fetchClaudeStream at h
  cases h1 : claudeLines parse rng t model 0 (linesOf chunks) with
  | error u =>
    rw [h1] at h
    injection h
  | ok evs1 =>
    rw [h1] at h
    dsimp only at h
    injection h with h'
    subst h'
    constructor
    · rw [countDone_append,
        countDone_zero_of evs1 (claudeLines_noDone parse rng t model _ _ _ h1),
        countDone_done]
    · exact List.getLast?_concat _

theorem gptContentEvent_notDone (rng : RNG) (obj : List (String × JValue)) (ev : Ev)
    (h : gptContentEvent rng obj = .ok ev) : ev ≠ Ev.str doneStr := by
  unfold gptContentEvent at h
  dsimp only at h
  split at h
  · repeat' split at h
    all_goals first
      | (injection h
         done)
      | (injection h with h'
         subst h'
         intro h2
         exact gen_sse_ne_done _ _ _ _ _ _ _ _ _ _ _ (Ev.str.inj h2))
  · injection h with h'
    subst h'
    intro h2
    exact rawEvent_ne_done _ (Ev.str.inj h2)

theorem gptLines_shape (parse : JParse) (rng : RNG) (t : Int) :
    ∀ (lines : List String) (evs : List Ev), gptLines parse rng t lines = .ok evs →
      (∀ e ∈ evs, e ≠ Ev.str doneStr) ∨
      (∃ pre, evs = pre ++ [Ev.str doneStr] ∧ ∀ e ∈ pre, e ≠ Ev.str doneStr) := by
  intro lines
  induction lines with
  | nil =>
    intro evs h
    injection h with h'
    subst h'
    exact Or.inl noDone_nil
  | cons line rest ih =>
    intro evs h
    rw [gptLines] at h
    split at h
    · dsimp only at h
      split at h
      · injection h with h'
        subst h'
        exact Or.inr ⟨[], rfl, noDone_nil⟩
      · cases hp : parse (pyLstrip dataStripChars line) with
        | none =>
          rw [hp] at h
          injection h
        | some obj =>
          rw [hp] at h
          dsimp only at h
          cases hev : gptContentEvent rng (objSet obj "id" (.str (chatcmplId rng t))) with
          | error u =>
            rw [hev] at h
            injection h
          | ok ev =>
            rw [hev] at h
            dsimp only at h
            cases hrest : gptLines parse rng t rest with
            | error u =>
              rw [hrest] at h
              injection h
            | ok evs2 =>
              rw [hrest] at h
              dsimp only at h
              injection h with h'
              subst h'
              rcases ih evs2 hrest with hnd | ⟨pre, hpre, hnd⟩
              · exact Or.inl (noDone_cons _ _ (gptContentEvent_notDone _ _ _ hev) hnd)
              · refine Or.inr ⟨ev :: pre, ?_, ?_⟩
                · rw [hpre, List.cons_append]
                · exact noDone_cons _ _ (gptContentEvent_notDone _ _ _ hev) hnd
    · exact ih evs h

theorem fetchGpt_done (parse : JParse) (rng : RNG) (t : Int)
    (chunks : List String) (evs : List Ev)
    (h : fetchGptStream parse rng t none chunks = .ok evs) :
    countDone evs ≤ 1 ∧ (countDone evs = 1 → evs.getLast? = some (Ev.str doneStr)) := by
  unfold fetchGptStream at h
  rcases gptLines_shape parse rng t (linesOf chunks) evs h with hnd | ⟨pre, hpre, hnd⟩
  · rw [countDone_zero_of evs hnd]
    refine ⟨by omega, fun h0 => absurd h0 (by omega)⟩
  · subst hpre
    have hc : countDone (pre ++ [Ev.str doneStr]) = 1 := by
      rw [countDone_append, countDone_zero_of pre hnd, countDone_done]
    rw [hc]
    exact ⟨le_refl 1, fun _ => List.getLast?_concat _⟩

/-- C2 counterexample: the GPT adapter on an accepted upstream (2xx, no
error event) that closes without sending a `[DONE]` line — here the
empty chunk sequence — produces an output with no terminal
`data: [DONE]` line at all, so not every accepted stream ends with
exactly one terminal line. -/
theorem c2_counterexample :
    fetchGptStream (fun _ => none) rngZero 0 none [] = .ok [] ∧
    countDone ([] : List Ev) = 0 ∧
    ([] : List Ev).getLast? ≠ some (Ev.str doneStr) :=
  ⟨rfl, rfl, by simp⟩

/-- C2 amended: on an upstream accepted without an error event and whose
processing raises no exception, the Gemini and Claude adapters always
end with exactly one terminal `data: [DONE]` line, as the last event;
the GPT adapter emits the terminal line at most once and, when it emits
one, it is the last event — but it emits none when the upstream closes
without a `[DONE]` marker. -/
theorem c2_amended_terminal_done :
    (∀ (parse : JParse) (rng : RNG) (t : Int) (model : String)
      (chunks : List String) (evs : List Ev),
      fetchGeminiStream parse rng t model none chunks = .ok evs →
      countDone evs = 1 ∧ evs.getLast? = some (Ev.str doneStr)) ∧
    (∀ (parse : JParse) (rng : RNG) (t : Int) (model : String)
      (chunks : List String) (evs : List Ev),
      fetchClaudeStream parse rng t model none chunks = .ok evs →
      countDone evs = 1 ∧ evs.getLast? = some (Ev.str doneStr)) ∧
    (∀ (parse : JParse) (rng : RNG) (t : Int)
      (chunks : List String) (evs : List Ev),
      fetchGptStream parse rng t none chunks = .ok evs →
      countDone evs ≤ 1 ∧ (countDone evs = 1 → evs.getLast? = some (Ev.str doneStr))) :=
  ⟨fun parse rng t model chunks evs h => fetchGemini_done parse rng t model chunks evs h,
   fun parse rng t model chunks evs h => fetchClaude_done parse rng t model chunks evs h,
   fun parse rng t chunks evs h => fetchGpt_done parse rng t chunks evs h⟩

/-- C2 amended witness: concrete runs of the three adapters. -/
theorem c2_amended_terminal_done_witness :
    (fetchGeminiStream (fun _ => none) rngZero 0 "m" none [] = .ok [Ev.str doneStr]) ∧
    (countDone [Ev.str doneStr] = 1 ∧
      ([Ev.str doneStr] : List Ev).getLast? = some (Ev.str doneStr)) ∧
    (fetchClaudeStream (fun _ => none) rngZero 0 "m" none [] = .ok [Ev.str doneStr]) ∧
    (countDone [Ev.str doneStr] = 1 ∧
      ([Ev.str doneStr] : List Ev).getLast? = some (Ev.str doneStr)) ∧
    (fetchGptStream (fun _ => none) rngZero 0 none ["data: [DONE]\n"] =
      .ok [Ev.str doneStr]) ∧
    (countDone [Ev.str doneStr] ≤ 1 ∧
      (countDone [Ev.str doneStr] = 1 →
        ([Ev.str doneStr] : List Ev).getLast? = some (Ev.str doneStr))) :=
  ⟨rfl,
   c2_amended_terminal_done.1 (fun _ => none) rngZero 0 "m" [] [Ev.str doneStr] rfl,
   rfl,
   c2_amended_terminal_done.2.1 (fun _ => none) rngZero 0 "m" [] [Ev.str doneStr] rfl,
   rfl,
   c2_amended_terminal_done.2.2 (fun _ => none) rngZero 0 ["data: [DONE]\n"]
     [Ev.str doneStr] rfl⟩

set_option maxRecDepth 4000 in
/-- C8: on the concrete upstream chunk holding a pretty-printed text
line whose JSON string contains the two-character sequence
backslash-`n`, a finish line, and a further text line, the Gemini
adapter yields exactly one text delta — whose content carries a literal
newline between `hello` and `world` — and then the terminal line; the
line behind the `"finishReason"` line is never processed. -/
theorem c8_gemini_text_newline_and_finish (rng : RNG) (t : Int) :
    fetchGeminiStream c8parse rng t "gemini" none [c8chunk] =
      .ok [Ev.str (generate_sse_response rng t "gemini"
        (some ("hello" ++ "\n" ++ "world")) none none none none 0 0 0),
        Ev.str doneStr] ∧
    ("hello" ++ "\n" ++ "world" : String).data.contains '\n' = true :=
  ⟨rfl, rfl⟩
